import Mathlib

/-!
# Mojify: `copy_to_clipboard.cpp`

A shallow embedding of `src/mojify-old/copy_to_clipboard.cpp`: the function
`CopyFileToClipboard` and `main`.

The program is a fixed sequence of Win32 calls.  The operating system is
modelled by

* `OS`: the answers the operating system gives to the calls whose result the
  program inspects (`GetFileAttributesW`, `GlobalAlloc`, `GlobalLock`,
  `OpenClipboard`, `SetClipboardData`);
* `World`: the observable state the program acts on: the clipboard content,
  whether this program holds the clipboard open, the log of the calls made so
  far and the console output.

Memory is modelled at byte level (lists of bytes, little endian), so that the
payload placed on the clipboard can be read back the way a consumer of the
file-drop format reads it.
-/

namespace Mojify

/-! ## Platform types -/

/-- A `wchar_t` value on the Win32 ABI: one 16-bit code unit. -/
abbrev WChar := Fin 65536

/-- A `char` object of a command-line argument: one byte. -/
abbrev CChar := Fin 256

/-- Modelled from the spec: `sizeof(wchar_t)`, fixed by the Win32 ABI and by no
file of the repository; the spec calls it `charSize` ("wide (UTF-16)
characters"), two bytes. -/
def sizeof_wchar_t : Nat := 2

/-- Modelled from the spec: the platform's file-drop header `DROPFILES`, declared
in the platform header `shlobj.h` and by no file of the repository.  The spec
describes its fields: the byte offset of the path list (`pFiles`), an unused
point (`pt`), the unused flag (`fNC`) and the wide-text flag (`fWide`).  The
order and the widths are those of the Win32 declaration
`DWORD pFiles; POINT pt; BOOL fNC; BOOL fWide;`. -/
structure DROPFILES where
  pFiles : Nat
  pt_x : Int
  pt_y : Int
  fNC : Int
  fWide : Int
  deriving DecidableEq, Repr

/-- Modelled from the spec: `sizeof(DROPFILES)`, the header's byte size
(`headerSize` in the spec): five 32-bit fields, packed. -/
def sizeof_DROPFILES : Nat := 20

/-- The Win32 constant `TRUE`. -/
def TRUE : Int := 1

/-- The clipboard format identifier `CF_HDROP` (the file-drop list format). -/
def CF_HDROP : Nat := 15

/-- The clipboard format identifier `CF_TEXT` (plain text), used in examples. -/
def CF_TEXT : Nat := 1

/-! ## Byte-level representation -/

/-- The two bytes of a 16-bit value, little endian. -/
def le16 (n : Nat) : List Nat := [n % 256, n / 256 % 256]

/-- The four bytes of a 32-bit value, little endian. -/
def le32 (n : Nat) : List Nat :=
  [n % 256, n / 256 % 256, n / 65536 % 256, n / 16777216 % 256]

/-- The four bytes of a signed 32-bit value (two's complement), little endian. -/
def le32s (z : Int) : List Nat := le32 (z % 4294967296).toNat

/-- The object representation of a `DROPFILES` value: what `memcpy` reads from
`&dropFiles`. -/
def bytesOfDROPFILES (d : DROPFILES) : List Nat :=
  le32 d.pFiles ++ le32s d.pt_x ++ le32s d.pt_y ++ le32s d.fNC ++ le32s d.fWide

/-- The bytes of a sequence of wide characters. -/
def bytesOfWChars : List WChar → List Nat
  | [] => []
  | u :: us => le16 u.val ++ bytesOfWChars us

/-- The buffer `filePath.c_str()` points to: the `length()` characters of the
string followed by the terminating null character. -/
def c_str_buffer (filePath : List WChar) : List WChar := filePath ++ [0]

/-- The string a callee reads from `filePath.c_str()`: the characters before the
first null character. -/
def c_str (filePath : List WChar) : List WChar := filePath.takeWhile (fun u => u ≠ 0)

/-- The library function `memcpy(dst + off, src, n)` on a block `dst`: `none`
when the write would leave the block or the read would leave the source. -/
def memcpy (dst : List Nat) (off : Nat) (src : List Nat) (n : Nat) : Option (List Nat) :=
  if off + n ≤ dst.length ∧ n ≤ src.length then
    some (dst.take off ++ src.take n ++ dst.drop (off + n))
  else none

/-- The library function `memset(dst + off, v, n)` on a block `dst`: `none` when
the write would leave the block. -/
def memset (dst : List Nat) (off : Nat) (v : Nat) (n : Nat) : Option (List Nat) :=
  if off + n ≤ dst.length then
    some (dst.take off ++ List.replicate n v ++ dst.drop (off + n))
  else none

/-! ## The operating system and the observable world -/

/-- One call of the program into the operating system or into a block of
memory, with the answer the program got. -/
inductive Call where
  | GetFileAttributesW (path : List WChar) (found : Bool)
  | GlobalAlloc (size : Nat) (ok : Bool)
  | GlobalLock (ok : Bool)
  | memcpy (off : Nat) (len : Nat)
  | memset (off : Nat) (len : Nat)
  | GlobalUnlock
  | GlobalFree
  | OpenClipboard (ok : Bool)
  | EmptyClipboard
  | SetClipboardData (format : Nat) (ok : Bool)
  | CloseClipboard
  deriving DecidableEq, Repr

/-- The console streams the program writes to. -/
inductive Stream where
  | cout
  | cerr
  | wcerr
  deriving DecidableEq, Repr

/-- The answers of the operating system to the calls whose result the program
inspects.  `true` stands for success. -/
structure OS where
  fileExists : List WChar → Bool
  allocOk : Nat → Bool
  lockOk : Bool
  openOk : Bool
  setDataOk : Bool

/-- The clipboard: the formats it holds, each with its payload bytes. -/
abbrev Clipboard := List (Nat × List Nat)

/-- The state the program acts on. -/
structure World where
  clipboard : Clipboard
  clipboardOpen : Bool
  calls : List Call
  output : List (Stream × String)
  deriving DecidableEq, Repr

/-- Record a call in the log. -/
def World.call (w : World) (c : Call) : World := { w with calls := w.calls ++ [c] }

/-- Write a line to a console stream. -/
def World.print (w : World) (s : Stream) (text : String) : World :=
  { w with output := w.output ++ [(s, text)] }

/-- A successful `OpenClipboard`: the program now holds the clipboard. -/
def World.opened (w : World) : World := { w with clipboardOpen := true }

/-- The clipboard service `EmptyClipboard`, called on a clipboard the program
holds open: every format is removed.  The program does not look at the result
of this call. -/
def World.emptied (w : World) : World := { w with clipboard := [] }

/-- A successful `SetClipboardData(format, block)`: the block becomes the content
of that format, replacing an earlier content of the same format.  A failing
`SetClipboardData` leaves the clipboard as it is. -/
def World.installed (w : World) (format : Nat) (block : List Nat) : World :=
  { w with clipboard := (format, block) :: w.clipboard.filter (fun e => e.1 ≠ format) }

/-- The clipboard service `CloseClipboard`: the program no longer holds the
clipboard. -/
def World.closed (w : World) : World := { w with clipboardOpen := false }

/-- What a query of the clipboard for a format reports: the payload, or `none`
when the clipboard holds no data of that format. -/
def getClipboardData (c : Clipboard) (format : Nat) : Option (List Nat) :=
  (c.find? (fun e => e.1 = format)).map (fun e => e.2)

/-- The return point `CopyFileToClipboard` leaves by.  The function returns
`void`; the spec names the return points.  `MemoryFault` stands for a write
outside the allocated block. -/
inductive Outcome where
  | PathNotFound
  | AllocationFailed
  | LockFailed
  | ClipboardUnavailable
  | PublishFailed
  | Published
  | MemoryFault
  deriving DecidableEq, Repr

/-! ## `CopyFileToClipboard` -/

/-- The local `filePathSize`: the path with its null terminator, in bytes. -/
def filePathSize (filePath : List WChar) : Nat := (filePath.length + 1) * sizeof_wchar_t

/-- The local `globalSize`: the size requested from `GlobalAlloc`.  The sum is
taken in `size_t`; it cannot wrap, since `length()` is at most the `max_size()`
of a `std::wstring`, so it is modelled in the natural numbers. -/
def globalSize (filePath : List WChar) : Nat :=
  sizeof_DROPFILES + filePathSize filePath + sizeof_wchar_t

/-- The local `dropFiles`: zero-initialised, then `pFiles` and `fWide` set. -/
def dropFiles : DROPFILES :=
  { pFiles := sizeof_DROPFILES, pt_x := 0, pt_y := 0, fNC := 0, fWide := TRUE }

/-- The function `CopyFileToClipboard` of `copy_to_clipboard.cpp`. -/
def CopyFileToClipboard (os : OS) (filePath : List WChar) (w : World) : Outcome × World :=
  -- Ensure the file exists
  let found := os.fileExists (c_str filePath)
  let w := w.call (.GetFileAttributesW (c_str filePath) found)
  if found = false then
    (.PathNotFound, w.print .wcerr "File does not exist: ")
  else
  -- Allocate global memory (GHND: movable, zero-initialised)
  let allocated := os.allocOk (globalSize filePath)
  let w := w.call (.GlobalAlloc (globalSize filePath) allocated)
  if allocated = false then
    (.AllocationFailed, w.print .cerr "GlobalAlloc failed.")
  else
  let block := List.replicate (globalSize filePath) 0
  -- Lock the memory
  let w := w.call (.GlobalLock os.lockOk)
  if os.lockOk = false then
    (.LockFailed, (w.print .cerr "GlobalLock failed.").call .GlobalFree)
  else
  -- Copy DROPFILES structure
  match memcpy block 0 (bytesOfDROPFILES dropFiles) sizeof_DROPFILES with
  | none => (.MemoryFault, w)
  | some block =>
  let w := w.call (.memcpy 0 sizeof_DROPFILES)
  -- Copy the file path (null-terminated)
  match memcpy block sizeof_DROPFILES (bytesOfWChars (c_str_buffer filePath))
      (filePathSize filePath) with
  | none => (.MemoryFault, w)
  | some block =>
  let w := w.call (.memcpy sizeof_DROPFILES (filePathSize filePath))
  -- Add double-null termination
  match memset block (sizeof_DROPFILES + filePathSize filePath) 0 sizeof_wchar_t with
  | none => (.MemoryFault, w)
  | some block =>
  let w := w.call (.memset (sizeof_DROPFILES + filePathSize filePath) sizeof_wchar_t)
  -- Unlock the global memory
  let w := w.call .GlobalUnlock
  -- Open the clipboard
  let w := w.call (.OpenClipboard os.openOk)
  if os.openOk = false then
    (.ClipboardUnavailable, (w.print .cerr "Failed to open clipboard.").call .GlobalFree)
  else
  let w := w.opened
  -- Clear the clipboard and set CF_HDROP data
  let w := (w.call .EmptyClipboard).emptied
  let w := w.call (.SetClipboardData CF_HDROP os.setDataOk)
  if os.setDataOk = false then
    -- Close the clipboard
    (.PublishFailed,
      (((w.print .cerr "SetClipboardData failed.").call .GlobalFree).call .CloseClipboard).closed)
  else
    (.Published,
      ((((w.installed CF_HDROP block).print .cout
        "File copied to clipboard successfully!")).call .CloseClipboard).closed)

/-! ## `main` -/

/-- The library function `strlen`: the number of bytes before the first null
byte. -/
def strlen (s : List CChar) : Nat := (s.takeWhile (fun b => b ≠ 0)).length

/-- The value of a `char` object: `char` is a signed type on the Win32
toolchains the program is built with. -/
def charValue (c : CChar) : Int := if c.val < 128 then (c.val : Int) else (c.val : Int) - 256

/-- The implicit conversion from `char` to `wchar_t` (an unsigned 16-bit type):
the value of the `char` modulo `2^16`. -/
def charToWchar (c : CChar) : WChar := Fin.ofNat ((charValue c % 65536).toNat)

/-- The range constructor `std::wstring(s, s + strlen(s))`: every `char` of the
range is converted to a `wchar_t` on its own. -/
def widen (s : List CChar) : List WChar := (s.take (strlen s)).map charToWchar

/-- The function `main` of `copy_to_clipboard.cpp`: `argv` holds the program
name and the arguments, `argc` is its length; the result is the exit code and
the world the program leaves. -/
def main (os : OS) (argv : List (List CChar)) (w : World) : Int × World :=
  let argc := argv.length
  if argc ≠ 2 then
    (1, w.print .cerr "Usage: <argv[0]> <file_path>")
  else
    let filePath := widen (argv.getD 1 [])
    (0, (CopyFileToClipboard os filePath w).2)

/-! ## Reading a file-drop payload back

The consumer's side of the file-drop format: the header is read from the first
bytes of the payload, the path list from the offset the header gives. -/

/-- The unsigned 32-bit value stored little endian at `off`. -/
def readLE32 (bs : List Nat) (off : Nat) : Nat :=
  bs.getD off 0 + 256 * bs.getD (off + 1) 0 + 65536 * bs.getD (off + 2) 0
    + 16777216 * bs.getD (off + 3) 0

/-- The signed 32-bit value stored little endian at `off`. -/
def readLE32s (bs : List Nat) (off : Nat) : Int :=
  if readLE32 bs off < 2147483648 then (readLE32 bs off : Int)
  else (readLE32 bs off : Int) - 4294967296

/-- The header of a payload, `none` when the payload is shorter than a header. -/
def readDROPFILES (bs : List Nat) : Option DROPFILES :=
  if bs.length < sizeof_DROPFILES then none
  else some
    { pFiles := readLE32 bs 0, pt_x := readLE32s bs 4, pt_y := readLE32s bs 8,
      fNC := readLE32s bs 12, fWide := readLE32s bs 16 }

/-- The wide characters stored in a run of bytes, two bytes each. -/
def readWChars : List Nat → List WChar
  | b0 :: b1 :: rest => Fin.ofNat (b0 + 256 * b1) :: readWChars rest
  | _ => []

/-- Split a wide-character list at null characters, stopping at the first empty
string; `cur` holds, reversed, the characters of the string being read.  The
result is the strings read and the characters after the empty string, `none`
when the list ends before an empty string. -/
def decodeFileListAux : List WChar → List WChar → Option (List (List WChar) × List WChar)
  | [], _ => none
  | u :: rest, cur =>
    if u = 0 then
      if cur = [] then some ([], rest)
      else (decodeFileListAux rest []).map (fun r => (cur.reverse :: r.1, r.2))
    else decodeFileListAux rest (u :: cur)

/-- The file list of a wide-character list: the null-terminated strings up to
the empty string that ends the list, and what follows that empty string. -/
def decodeFileList (us : List WChar) : Option (List (List WChar) × List WChar) :=
  decodeFileListAux us []

/-- The file list of a payload with header `d`: the wide-character list that
starts `d.pFiles` bytes into the payload. -/
def readFileList (bs : List Nat) (d : DROPFILES) : Option (List (List WChar) × List WChar) :=
  decodeFileList (readWChars (bs.drop d.pFiles))

/-- The payload `CopyFileToClipboard` builds for a path: the header, the path
with its terminator, the extra terminator. -/
def payload (filePath : List WChar) : List Nat :=
  bytesOfDROPFILES dropFiles ++ bytesOfWChars (c_str_buffer filePath) ++ [0, 0]

/-- An existing path: the name of a file-system entry the operating system
reports.  A name has at least one character and holds no null character (a
null ends the string in every Win32 call, the attribute query included). -/
def existingPath (os : OS) (P : List WChar) : Bool :=
  !P.isEmpty && P.all (fun u => u ≠ 0) && os.fileExists P

/-- The calls a run added to the log of the world it started from. -/
def newCalls (before after : World) : List Call := after.calls.drop before.calls.length

/-- The writes into the block among some calls, as (offset, length) pairs. -/
def writesOf : List Call → List (Nat × Nat)
  | [] => []
  | .memcpy off len :: cs => (off, len) :: writesOf cs
  | .memset off len :: cs => (off, len) :: writesOf cs
  | _ :: cs => writesOf cs

/-- The byte ranges `ws`, in order, tile the range from `a` to `b`: the first
starts at `a`, each next one starts where the one before ends, the last ends at
`b`. -/
def tiles : List (Nat × Nat) → Nat → Nat → Prop
  | [], a, b => a = b
  | (off, len) :: ws, a, b => off = a ∧ tiles ws (a + len) b

/-- The calls of the clipboard service. -/
def Call.isClipboardCall : Call → Bool
  | .OpenClipboard _ => true
  | .EmptyClipboard => true
  | .SetClipboardData _ _ => true
  | .CloseClipboard => true
  | _ => false

/-- The attribute queries: `CopyFileToClipboard` makes one, first of all, each
time it is called. -/
def Call.isAttributeQuery : Call → Bool
  | .GetFileAttributesW _ _ => true
  | _ => false

/-! ## Reference encodings

The encodings a file name has outside the program: the UTF-8 bytes a command
line may carry, the UTF-16 code units the file-drop format expects, and the
single-byte reading ISO-8859-1. -/

/-- The UTF-8 bytes of a Unicode scalar value. -/
def utf8EncodeChar (c : Char) : List CChar :=
  if c.toNat < 128 then [Fin.ofNat c.toNat]
  else if c.toNat < 2048 then
    [Fin.ofNat (192 + c.toNat / 64), Fin.ofNat (128 + c.toNat % 64)]
  else if c.toNat < 65536 then
    [Fin.ofNat (224 + c.toNat / 4096), Fin.ofNat (128 + c.toNat / 64 % 64),
     Fin.ofNat (128 + c.toNat % 64)]
  else
    [Fin.ofNat (240 + c.toNat / 262144), Fin.ofNat (128 + c.toNat / 4096 % 64),
     Fin.ofNat (128 + c.toNat / 64 % 64), Fin.ofNat (128 + c.toNat % 64)]

/-- The UTF-8 bytes of a text. -/
def utf8Encode : List Char → List CChar
  | [] => []
  | c :: cs => utf8EncodeChar c ++ utf8Encode cs

/-- The UTF-16 code units of a Unicode scalar value. -/
def utf16EncodeChar (c : Char) : List WChar :=
  if c.toNat < 65536 then [Fin.ofNat c.toNat]
  else
    [Fin.ofNat (55296 + (c.toNat - 65536) / 1024), Fin.ofNat (56320 + (c.toNat - 65536) % 1024)]

/-- The UTF-16 code units of a text. -/
def utf16Encode : List Char → List WChar
  | [] => []
  | c :: cs => utf16EncodeChar c ++ utf16Encode cs

/-- The UTF-16 code unit of a byte read as ISO-8859-1, where the code point of
a character is the value of its byte. -/
def latin1ToWchar (c : CChar) : WChar := Fin.ofNat c.val

/-! ## Example inputs -/

/-- The path `C:\a`. -/
def examplePath : List WChar := [67, 58, 92, 97]

/-- An operating system in which the file `C:\a` exists and nothing else, with
the given answers to the other calls. -/
def exampleOS (allocOk lockOk openOk setDataOk : Bool) : OS :=
  { fileExists := fun p => decide (p = examplePath)
    allocOk := fun _ => allocOk
    lockOk := lockOk
    openOk := openOk
    setDataOk := setDataOk }

/-- An operating system that answers every call with success, whatever the
path. -/
def permissiveOS : OS :=
  { fileExists := fun _ => true
    allocOk := fun _ => true
    lockOk := true
    openOk := true
    setDataOk := true }

/-- A world whose clipboard holds the plain text `hi`. -/
def exampleWorld : World :=
  { clipboard := [(CF_TEXT, [104, 105, 0])], clipboardOpen := false, calls := [], output := [] }

/-- A world whose clipboard holds a file-drop entry from an earlier copy, of the
file `b`. -/
def fileDropWorld : World :=
  { clipboard := [(CF_HDROP, payload [98])], clipboardOpen := false, calls := [], output := [] }

/-- The command-line argument `C:\a`, null-terminated. -/
def exampleArg : List CChar := [67, 58, 92, 97, 0]

/-- The UTF-8 bytes of the file name `é` (U+00E9), null-terminated. -/
def accentedArg : List CChar := [195, 169, 0]

/-! ## Lemmas: the block -/

theorem length_bytesOfWChars (us : List WChar) : (bytesOfWChars us).length = 2 * us.length := by
  induction us with
  | nil => rfl
  | cons u us ih => simp [bytesOfWChars, le16, ih]; omega

theorem bytesOfDROPFILES_dropFiles :
    bytesOfDROPFILES dropFiles = [20, 0, 0, 0, 0, 0, 0, 0, 0, 0, 0, 0, 0, 0, 0, 0, 1, 0, 0, 0] := by
  decide

theorem memcpy_mid (a b c src : List Nat) (h : src.length = b.length) :
    memcpy (a ++ b ++ c) a.length src b.length = some (a ++ src ++ c) := by
  unfold memcpy
  have h1 : a.length + b.length ≤ (a ++ b ++ c).length ∧ b.length ≤ src.length := by
    simp [h]
  rw [if_pos h1]
  have h2 : List.take a.length (a ++ b ++ c) = a := by
    rw [List.append_assoc, List.take_left]
  have h3 : List.drop (a.length + b.length) (a ++ b ++ c) = c := by
    rw [← List.length_append, List.drop_left]
  have h4 : List.take b.length src = src := by
    rw [← h, List.take_length]
  rw [h2, h3, h4]

theorem memset_mid (a b c : List Nat) (v : Nat) :
    memset (a ++ b ++ c) a.length v b.length = some (a ++ List.replicate b.length v ++ c) := by
  unfold memset
  have h1 : a.length + b.length ≤ (a ++ b ++ c).length := by simp
  rw [if_pos h1]
  have h2 : List.take a.length (a ++ b ++ c) = a := by
    rw [List.append_assoc, List.take_left]
  have h3 : List.drop (a.length + b.length) (a ++ b ++ c) = c := by
    rw [← List.length_append, List.drop_left]
  rw [h2, h3]

theorem length_header : (bytesOfDROPFILES dropFiles).length = sizeof_DROPFILES := by
  rw [bytesOfDROPFILES_dropFiles]; rfl

theorem length_pathBytes (P : List WChar) :
    (bytesOfWChars (c_str_buffer P)).length = filePathSize P := by
  simp [length_bytesOfWChars, c_str_buffer, filePathSize, sizeof_wchar_t]; omega

theorem write_header (P : List WChar) :
    memcpy (List.replicate (globalSize P) 0) 0 (bytesOfDROPFILES dropFiles) sizeof_DROPFILES
      = some (bytesOfDROPFILES dropFiles
          ++ List.replicate (filePathSize P + sizeof_wchar_t) 0) := by
  have h := memcpy_mid [] (List.replicate sizeof_DROPFILES 0)
    (List.replicate (filePathSize P + sizeof_wchar_t) 0) (bytesOfDROPFILES dropFiles)
    (by rw [length_header]; simp)
  have e : List.replicate (globalSize P) 0
      = [] ++ List.replicate sizeof_DROPFILES 0
          ++ List.replicate (filePathSize P + sizeof_wchar_t) 0 := by
    unfold globalSize
    rw [Nat.add_assoc, List.replicate_add]
    rfl
  rw [e]
  simpa using h

theorem write_path (P : List WChar) :
    memcpy (bytesOfDROPFILES dropFiles ++ List.replicate (filePathSize P + sizeof_wchar_t) 0)
        sizeof_DROPFILES (bytesOfWChars (c_str_buffer P)) (filePathSize P)
      = some (bytesOfDROPFILES dropFiles ++ bytesOfWChars (c_str_buffer P)
          ++ List.replicate sizeof_wchar_t 0) := by
  have h := memcpy_mid (bytesOfDROPFILES dropFiles) (List.replicate (filePathSize P) 0)
    (List.replicate sizeof_wchar_t 0) (bytesOfWChars (c_str_buffer P))
    (by rw [length_pathBytes]; simp)
  rw [length_header, List.length_replicate, List.append_assoc, ← List.replicate_add] at h
  exact h

theorem write_terminator (P : List WChar) :
    memset (bytesOfDROPFILES dropFiles ++ bytesOfWChars (c_str_buffer P)
          ++ List.replicate sizeof_wchar_t 0)
        (sizeof_DROPFILES + filePathSize P) 0 sizeof_wchar_t
      = some (payload P) := by
  have h := memset_mid (bytesOfDROPFILES dropFiles ++ bytesOfWChars (c_str_buffer P))
    (List.replicate sizeof_wchar_t 0) [] 0
  rw [List.length_append, length_header, length_pathBytes, List.length_replicate] at h
  simp only [List.append_nil] at h
  rw [h]
  rfl

theorem length_payload (P : List WChar) : (payload P).length = globalSize P := by
  simp [payload, length_header, length_pathBytes, globalSize, sizeof_wchar_t, Nat.add_assoc]

/-! ## Lemmas: the run of `CopyFileToClipboard`, return point by return point -/

theorem CopyFileToClipboard_eq (os : OS) (P : List WChar) (w : World) :
    CopyFileToClipboard os P w =
      if os.fileExists (c_str P) = false then
        (.PathNotFound,
          { w with
            calls := w.calls ++ [.GetFileAttributesW (c_str P) false]
            output := w.output ++ [(.wcerr, "File does not exist: ")] })
      else if os.allocOk (globalSize P) = false then
        (.AllocationFailed,
          { w with
            calls := w.calls ++
              [.GetFileAttributesW (c_str P) true, .GlobalAlloc (globalSize P) false]
            output := w.output ++ [(.cerr, "GlobalAlloc failed.")] })
      else if os.lockOk = false then
        (.LockFailed,
          { w with
            calls := w.calls ++
              [.GetFileAttributesW (c_str P) true, .GlobalAlloc (globalSize P) true,
               .GlobalLock false, .GlobalFree]
            output := w.output ++ [(.cerr, "GlobalLock failed.")] })
      else if os.openOk = false then
        (.ClipboardUnavailable,
          { w with
            calls := w.calls ++
              [.GetFileAttributesW (c_str P) true, .GlobalAlloc (globalSize P) true,
               .GlobalLock true, .memcpy 0 sizeof_DROPFILES,
               .memcpy sizeof_DROPFILES (filePathSize P),
               .memset (sizeof_DROPFILES + filePathSize P) sizeof_wchar_t,
               .GlobalUnlock, .OpenClipboard false, .GlobalFree]
            output := w.output ++ [(.cerr, "Failed to open clipboard.")] })
      else if os.setDataOk = false then
        (.PublishFailed,
          { clipboard := []
            clipboardOpen := false
            calls := w.calls ++
              [.GetFileAttributesW (c_str P) true, .GlobalAlloc (globalSize P) true,
               .GlobalLock true, .memcpy 0 sizeof_DROPFILES,
               .memcpy sizeof_DROPFILES (filePathSize P),
               .memset (sizeof_DROPFILES + filePathSize P) sizeof_wchar_t,
               .GlobalUnlock, .OpenClipboard true, .EmptyClipboard,
               .SetClipboardData CF_HDROP false, .GlobalFree, .CloseClipboard]
            output := w.output ++ [(.cerr, "SetClipboardData failed.")] })
      else
        (.Published,
          { clipboard := [(CF_HDROP, payload P)]
            clipboardOpen := false
            calls := w.calls ++
              [.GetFileAttributesW (c_str P) true, .GlobalAlloc (globalSize P) true,
               .GlobalLock true, .memcpy 0 sizeof_DROPFILES,
               .memcpy sizeof_DROPFILES (filePathSize P),
               .memset (sizeof_DROPFILES + filePathSize P) sizeof_wchar_t,
               .GlobalUnlock, .OpenClipboard true, .EmptyClipboard,
               .SetClipboardData CF_HDROP true, .CloseClipboard]
            output := w.output ++ [(.cout, "File copied to clipboard successfully!")] }) := by
  unfold CopyFileToClipboard
  simp only [write_header, write_path, write_terminator]
  cases h1 : os.fileExists (c_str P) <;> cases h2 : os.allocOk (globalSize P) <;>
    cases h3 : os.lockOk <;> cases h4 : os.openOk <;> cases h5 : os.setDataOk <;>
    simp [World.call, World.print, World.opened, World.emptied, World.installed, World.closed]

/-! ## Lemmas: reading the payload back -/

theorem readDROPFILES_payload (P : List WChar) : readDROPFILES (payload P) = some dropFiles := by
  have hlen : ¬ (payload P).length < sizeof_DROPFILES := by
    rw [length_payload]; unfold globalSize; omega
  unfold readDROPFILES
  rw [if_neg hlen]
  unfold payload
  rw [bytesOfDROPFILES_dropFiles]
  simp [readLE32, readLE32s, dropFiles, sizeof_DROPFILES, TRUE]

theorem drop_payload (P : List WChar) :
    (payload P).drop sizeof_DROPFILES = bytesOfWChars (c_str_buffer P) ++ [0, 0] := by
  unfold payload
  rw [List.append_assoc, ← length_header, List.drop_left]

theorem readWChars_le16 (u : WChar) (rest : List Nat) :
    readWChars (le16 u.val ++ rest) = u :: readWChars rest := by
  have hu := u.isLt
  simp only [le16, List.cons_append, List.nil_append, readWChars]
  congr 1
  apply Fin.ext
  simp only [Fin.ofNat, Fin.val_mk]
  omega

theorem readWChars_bytesOfWChars (us : List WChar) (tail : List Nat) :
    readWChars (bytesOfWChars us ++ tail) = us ++ readWChars tail := by
  induction us with
  | nil => rfl
  | cons u us ih =>
    simp only [bytesOfWChars, List.append_assoc, List.cons_append]
    rw [readWChars_le16, ih]

theorem readWChars_tail_payload (P : List WChar) :
    readWChars ((payload P).drop sizeof_DROPFILES) = P ++ [0, 0] := by
  rw [drop_payload, readWChars_bytesOfWChars]
  simp [c_str_buffer, readWChars, Fin.ofNat]

theorem decodeFileListAux_append (P : List WChar) (hnul : ∀ u ∈ P, u ≠ 0) :
    ∀ (rest cur : List WChar),
      decodeFileListAux (P ++ rest) cur = decodeFileListAux rest (P.reverse ++ cur) := by
  induction P with
  | nil => intro rest cur; rfl
  | cons u us ih =>
    intro rest cur
    have hu : u ≠ 0 := hnul u (List.mem_cons_self _ _)
    have hus : ∀ v ∈ us, v ≠ 0 := fun v hv => hnul v (List.mem_cons_of_mem _ hv)
    rw [List.cons_append]
    simp only [decodeFileListAux, if_neg hu]
    rw [ih hus]
    simp

theorem decodeFileList_single (P : List WChar) (hne : P ≠ []) (hnul : ∀ u ∈ P, u ≠ 0) :
    decodeFileList (P ++ [0, 0]) = some ([P], []) := by
  unfold decodeFileList
  rw [decodeFileListAux_append P hnul]
  have hrev : P.reverse ≠ [] := by simpa using hne
  simp [decodeFileListAux, hrev]

theorem drop_calls (cs l : List Call) : (cs ++ l).drop cs.length = l := List.drop_left cs l

theorem outcome_indep (os : OS) (P : List WChar) (w w2 : World) :
    (CopyFileToClipboard os P w).1 = (CopyFileToClipboard os P w2).1 := by
  rw [CopyFileToClipboard_eq, CopyFileToClipboard_eq]
  split_ifs <;> rfl

theorem clipboard_eq (os : OS) (P : List WChar) (w : World) :
    (CopyFileToClipboard os P w).2.clipboard =
      if (CopyFileToClipboard os P w).1 = Outcome.Published then [(CF_HDROP, payload P)]
      else if (CopyFileToClipboard os P w).1 = Outcome.PublishFailed then []
      else w.clipboard := by
  rw [CopyFileToClipboard_eq]
  split_ifs <;> simp_all

theorem clipboardOpen_eq (os : OS) (P : List WChar) (w : World) :
    (CopyFileToClipboard os P w).2.clipboardOpen =
      if (CopyFileToClipboard os P w).1 = Outcome.Published then false
      else if (CopyFileToClipboard os P w).1 = Outcome.PublishFailed then false
      else w.clipboardOpen := by
  rw [CopyFileToClipboard_eq]
  split_ifs <;> simp_all

/-! ## Lemmas: the command-line argument -/

theorem charToWchar_val (c : CChar) :
    (charToWchar c).val = if c.val < 128 then c.val else c.val + 65280 := by
  have hc := c.isLt
  unfold charToWchar charValue
  simp only [Fin.ofNat, Fin.val_mk]
  split_ifs with h <;> omega

theorem take_strlen (s : List CChar) : s.take (strlen s) = s.takeWhile (fun b => b ≠ 0) := by
  unfold strlen
  induction s with
  | nil => rfl
  | cons b bs ih =>
    by_cases hb : b = 0
    · simp [List.takeWhile, hb]
    · simp only [List.takeWhile, hb, ne_eq, not_false_eq_true, decide_True, List.length_cons,
        List.take_succ_cons]
      rw [ih]

theorem length_widen (s : List CChar) : (widen s).length = strlen s := by
  unfold widen
  rw [List.length_map, take_strlen]
  rfl

theorem strlen_le (s : List CChar) : strlen s ≤ s.length := by
  unfold strlen
  exact (List.takeWhile_sublist _).length_le

theorem getElem?_widen (s : List CChar) (i : Nat) (h : i < strlen s) :
    (widen s)[i]? = (s[i]?).map charToWchar := by
  unfold widen
  rw [List.getElem?_map, List.getElem?_take, if_pos h]

theorem char_toNat_lt (c : Char) : c.toNat < 1114112 := by
  have h := c.valid
  unfold UInt32.isValidChar Nat.isValidChar at h
  unfold Char.toNat
  omega

theorem utf8EncodeChar_high (c : Char) (h : 128 ≤ c.toNat) :
    (∀ b ∈ utf8EncodeChar c, 128 ≤ b.val)
    ∧ (utf16EncodeChar c).length < (utf8EncodeChar c).length := by
  have hlt := char_toNat_lt c
  unfold utf8EncodeChar utf16EncodeChar
  split_ifs <;> simp [Fin.ofNat] <;> omega

theorem utf8EncodeChar_ascii (c : Char) (h : c.toNat < 128) :
    utf8EncodeChar c = [Fin.ofNat c.toNat] ∧ utf16EncodeChar c = [Fin.ofNat c.toNat] := by
  unfold utf8EncodeChar utf16EncodeChar
  rw [if_pos h, if_pos (by omega)]
  exact ⟨rfl, rfl⟩

theorem charToWchar_ascii (n : Nat) (h : n < 128) :
    charToWchar (Fin.ofNat n) = Fin.ofNat n := by
  apply Fin.ext
  rw [charToWchar_val]
  simp only [Fin.ofNat, Fin.val_mk]
  split_ifs <;> omega

theorem length_utf16_le (text : List Char) :
    (utf16Encode text).length ≤ (utf8Encode text).length := by
  induction text with
  | nil => exact Nat.le_refl _
  | cons c cs ih =>
    simp only [utf16Encode, utf8Encode, List.length_append]
    by_cases h : c.toNat < 128
    · rw [(utf8EncodeChar_ascii c h).1, (utf8EncodeChar_ascii c h).2]
      simpa using ih
    · have := (utf8EncodeChar_high c (by omega)).2
      omega

theorem length_utf16_lt (text : List Char) (h : ∃ b ∈ utf8Encode text, 128 ≤ b.val) :
    (utf16Encode text).length < (utf8Encode text).length := by
  induction text with
  | nil => simp [utf8Encode] at h
  | cons c cs ih =>
    simp only [utf16Encode, utf8Encode, List.length_append]
    by_cases hc : c.toNat < 128
    · obtain ⟨b, hb, hb128⟩ := h
      simp only [utf8Encode, List.mem_append] at hb
      rw [(utf8EncodeChar_ascii c hc).1] at hb
      rcases hb with hb | hb
      · simp only [List.mem_singleton] at hb
        rw [hb] at hb128
        simp only [Fin.ofNat, Fin.val_mk] at hb128
        omega
      · have := ih ⟨b, hb, hb128⟩
        rw [(utf8EncodeChar_ascii c hc).1, (utf8EncodeChar_ascii c hc).2]
        simpa using this
    · have h1 := (utf8EncodeChar_high c (by omega)).2
      have h2 := length_utf16_le cs
      omega

theorem map_charToWchar_utf8_ascii (text : List Char)
    (h : ∀ b ∈ utf8Encode text, b.val < 128) :
    (utf8Encode text).map charToWchar = utf16Encode text := by
  induction text with
  | nil => rfl
  | cons c cs ih =>
    have hc : c.toNat < 128 := by
      by_contra hcon
      have hh := (utf8EncodeChar_high c (by omega))
      have hpos : 0 < (utf8EncodeChar c).length := by omega
      obtain ⟨b, hb⟩ := List.exists_mem_of_length_pos hpos
      have h1 := hh.1 b hb
      have h2 := h b (by simp [utf8Encode, hb])
      omega
    have hcs : ∀ b ∈ utf8Encode cs, b.val < 128 := fun b hb => h b (by simp [utf8Encode, hb])
    simp only [utf8Encode, utf16Encode, List.map_append]
    rw [ih hcs, (utf8EncodeChar_ascii c hc).1, (utf8EncodeChar_ascii c hc).2]
    simp [charToWchar_ascii _ hc]

theorem charToWchar_ne_latin1 (b : CChar) (h : 128 ≤ b.val) : charToWchar b ≠ latin1ToWchar b := by
  intro he
  have := congrArg Fin.val he
  rw [charToWchar_val] at this
  have hb := b.isLt
  simp only [latin1ToWchar, Fin.ofNat, Fin.val_mk] at this
  split_ifs at this <;> omega

theorem charToWchar_eq_latin1 (b : CChar) (h : b.val < 128) : charToWchar b = latin1ToWchar b := by
  apply Fin.ext
  rw [charToWchar_val, if_pos h]
  have hb := b.isLt
  simp only [latin1ToWchar, Fin.ofNat, Fin.val_mk]
  omega

theorem widen_no_null (s : List CChar) : ∀ u ∈ widen s, u ≠ 0 := by
  intro u hu
  unfold widen at hu
  rw [take_strlen] at hu
  obtain ⟨b, hb, rfl⟩ := List.mem_map.mp hu
  have hb0 : b ≠ 0 := by simpa using List.mem_takeWhile_imp hb
  intro h0
  have hv := congrArg Fin.val h0
  rw [charToWchar_val] at hv
  have hbv : b.val ≠ 0 := fun h => hb0 (Fin.ext h)
  have hz : ((0 : WChar)).val = 0 := rfl
  rw [hz] at hv
  split_ifs at hv
  all_goals omega

theorem main_eq_of_two (os : OS) (prog arg : List CChar) (w : World) :
    main os [prog, arg] w = (0, (CopyFileToClipboard os (widen arg) w).2) := by
  simp [main]

theorem count_attribute_queries (os : OS) (P : List WChar) (w : World) :
    (newCalls w (CopyFileToClipboard os P w).2).countP Call.isAttributeQuery = 1 := by
  rw [CopyFileToClipboard_eq]
  split_ifs <;>
    simp [newCalls, drop_calls, List.countP_cons, Call.isAttributeQuery]

/-! ## The claims -/

/-- C2: for every path `P`, the empty one included, the size requested from the
allocator is `sizeof(DROPFILES) + (len(P)+1)*sizeof(wchar_t) + sizeof(wchar_t)`;
no write leaves the block (the run never ends in a memory fault); a run makes
either no write (it returned before populating the block) or the three writes
header, path with terminator, extra terminator, which tile the block from byte
`0` to byte `globalSize` without gap or overlap; and the three writes are made
whenever the lock succeeded. -/
theorem C2_exact_fit_allocation (os : OS) (P : List WChar) (w : World) :
    globalSize P = sizeof_DROPFILES + (P.length + 1) * sizeof_wchar_t + sizeof_wchar_t
    ∧ (∀ n ok, Call.GlobalAlloc n ok ∈ newCalls w (CopyFileToClipboard os P w).2 →
        n = sizeof_DROPFILES + (P.length + 1) * sizeof_wchar_t + sizeof_wchar_t)
    ∧ (CopyFileToClipboard os P w).1 ≠ Outcome.MemoryFault
    ∧ (writesOf (newCalls w (CopyFileToClipboard os P w).2) = []
        ∨ (writesOf (newCalls w (CopyFileToClipboard os P w).2)
              = [(0, sizeof_DROPFILES),
                 (sizeof_DROPFILES, (P.length + 1) * sizeof_wchar_t),
                 (sizeof_DROPFILES + (P.length + 1) * sizeof_wchar_t, sizeof_wchar_t)]
            ∧ tiles (writesOf (newCalls w (CopyFileToClipboard os P w).2)) 0 (globalSize P)))
    ∧ (Call.GlobalLock true ∈ newCalls w (CopyFileToClipboard os P w).2 →
        writesOf (newCalls w (CopyFileToClipboard os P w).2) ≠ []) := by
  rw [CopyFileToClipboard_eq]
  refine ⟨rfl, ?_⟩
  split_ifs <;>
    simp [newCalls, drop_calls, writesOf, tiles, globalSize, filePathSize, Nat.add_assoc]

/-- C2, at the empty path: 24 bytes are requested and the three writes are the
ranges 0..20, 20..22 and 22..24. -/
theorem C2_empty_path_example :
    globalSize [] = 24
    ∧ writesOf (newCalls exampleWorld
        (CopyFileToClipboard permissiveOS [] exampleWorld).2)
      = [(0, 20), (20, 2), (22, 2)] := by
  refine ⟨by decide, ?_⟩
  have h := (C2_exact_fit_allocation permissiveOS [] exampleWorld).2.2.2.1
  rcases h with h | h
  · exact absurd h (by decide)
  · exact h.1

/-- C3: when the attribute query for the path fails, `CopyFileToClipboard`
returns at path-not-found; the attribute query is the only call it made (no
allocation, no clipboard open, empty, set-data or close); the clipboard content
and the open state are those before the call, so every format reports what it
reported before. -/
theorem C3_path_not_found_no_action (os : OS) (P : List WChar) (w : World)
    (h : os.fileExists (c_str P) = false) :
    (CopyFileToClipboard os P w).1 = Outcome.PathNotFound
    ∧ newCalls w (CopyFileToClipboard os P w).2 = [Call.GetFileAttributesW (c_str P) false]
    ∧ (CopyFileToClipboard os P w).2.clipboard = w.clipboard
    ∧ (CopyFileToClipboard os P w).2.clipboardOpen = w.clipboardOpen
    ∧ (∀ f, getClipboardData (CopyFileToClipboard os P w).2.clipboard f
          = getClipboardData w.clipboard f) := by
  rw [CopyFileToClipboard_eq, if_pos h]
  simp [newCalls, drop_calls]

/-- C3 at a concrete input: the file `b` does not exist, the clipboard holds
plain text before the call and the same plain text after it. -/
theorem C3_witness :
    (exampleOS true true true true).fileExists (c_str [98]) = false
    ∧ getClipboardData
        (CopyFileToClipboard (exampleOS true true true true) [98] exampleWorld).2.clipboard
        CF_TEXT = some [104, 105, 0] :=
  ⟨by decide,
   ((C3_path_not_found_no_action (exampleOS true true true true) [98] exampleWorld
      (by decide)).2.2.2.2 CF_TEXT).trans (by decide)⟩

/-- C1: the payload a successful `CopyFileToClipboard(P)` installs under the
file-drop format reads back, for every `P`, as a header whose `pFiles` is the
header's byte size, whose `fWide` is `TRUE` and whose `fNC` and point are zero;
and for every existing path `P` the wide-character list at that offset decodes
to exactly one entry, `P`, followed by the empty-string terminator, with which
the payload ends.  The same holds for every non-empty path `main` builds from
its argument. -/
theorem C1_payload_reads_back (os : OS) (P : List WChar) (w : World)
    (h : (CopyFileToClipboard os P w).1 = Outcome.Published) :
    ∃ bytes d,
      getClipboardData (CopyFileToClipboard os P w).2.clipboard CF_HDROP = some bytes
      ∧ readDROPFILES bytes = some d
      ∧ d.pFiles = sizeof_DROPFILES
      ∧ d.fWide = TRUE
      ∧ d.fNC = 0 ∧ d.pt_x = 0 ∧ d.pt_y = 0
      ∧ (existingPath os P = true → readFileList bytes d = some ([P], []))
      ∧ (∀ arg, P = widen arg → P ≠ [] → readFileList bytes d = some ([P], [])) := by
  have hdec : P ≠ [] → (∀ u ∈ P, u ≠ 0) → readFileList (payload P) dropFiles = some ([P], []) := by
    intro hne hnul
    show decodeFileList (readWChars ((payload P).drop sizeof_DROPFILES)) = some ([P], [])
    rw [readWChars_tail_payload, decodeFileList_single P hne hnul]
  rw [CopyFileToClipboard_eq] at h ⊢
  split_ifs at h ⊢ with h1 h2 h3 h4 h5
  refine ⟨payload P, dropFiles, ?_, readDROPFILES_payload P, rfl, rfl, rfl, rfl, rfl, ?_, ?_⟩
  · simp [getClipboardData]
  · intro hP
    simp only [existingPath, Bool.and_eq_true, Bool.not_eq_true', List.isEmpty_eq_false,
      List.all_eq_true, decide_eq_true_eq] at hP
    exact hdec hP.1.1 hP.1.2
  · intro arg harg hne
    exact hdec hne (by rw [harg]; exact widen_no_null arg)

/-- C1 at a concrete input: the path `C:\a` exists, the call succeeds, and the
payload on the clipboard reads back as the header and the one entry `C:\a`. -/
theorem C1_witness :
    existingPath (exampleOS true true true true) examplePath = true
    ∧ ∃ bytes d,
        getClipboardData
          (CopyFileToClipboard (exampleOS true true true true) examplePath
            exampleWorld).2.clipboard CF_HDROP = some bytes
        ∧ readDROPFILES bytes = some d
        ∧ d.pFiles = sizeof_DROPFILES
        ∧ d.fWide = TRUE
        ∧ d.fNC = 0 ∧ d.pt_x = 0 ∧ d.pt_y = 0
        ∧ readFileList bytes d = some ([examplePath], []) := by
  refine ⟨by decide, ?_⟩
  obtain ⟨bytes, d, g1, g2, g3, g4, g5, g6, g7, g8, _⟩ :=
    C1_payload_reads_back (exampleOS true true true true) examplePath exampleWorld (by decide)
  exact ⟨bytes, d, g1, g2, g3, g4, g5, g6, g7, g8 (by decide)⟩

/-- C4: for every initial clipboard content, after a successful
`CopyFileToClipboard(P)` the clipboard holds exactly one entry, under the
file-drop format, whose payload is the one built for `P`; every other format
reports no data. -/
theorem C4_success_replaces_clipboard (os : OS) (P : List WChar) (w : World)
    (h : (CopyFileToClipboard os P w).1 = Outcome.Published) :
    os.fileExists (c_str P) = true
    ∧ (CopyFileToClipboard os P w).2.clipboard = [(CF_HDROP, payload P)]
    ∧ getClipboardData (CopyFileToClipboard os P w).2.clipboard CF_HDROP = some (payload P)
    ∧ (∀ f, f ≠ CF_HDROP →
        getClipboardData (CopyFileToClipboard os P w).2.clipboard f = none) := by
  rw [CopyFileToClipboard_eq] at h ⊢
  split_ifs at h ⊢ with h1 h2 h3 h4 h5
  refine ⟨by simpa using h1, rfl, by simp [getClipboardData], ?_⟩
  intro f hf
  simp [getClipboardData, List.find?, Ne.symm hf]

/-- C4 at a concrete input: the clipboard holds plain text before the call; after
the successful call for `C:\a` the plain-text format reports no data and the
file-drop format reports the payload. -/
theorem C4_witness :
    getClipboardData exampleWorld.clipboard CF_TEXT = some [104, 105, 0]
    ∧ getClipboardData
        (CopyFileToClipboard (exampleOS true true true true) examplePath
          exampleWorld).2.clipboard CF_TEXT = none
    ∧ (CopyFileToClipboard (exampleOS true true true true) examplePath
          exampleWorld).2.clipboard = [(CF_HDROP, payload examplePath)] :=
  ⟨by decide,
   (C4_success_replaces_clipboard (exampleOS true true true true) examplePath exampleWorld
      (by decide)).2.2.2 CF_TEXT (by decide),
   (C4_success_replaces_clipboard (exampleOS true true true true) examplePath exampleWorld
      (by decide)).2.1⟩

/-- C5: in every run of `CopyFileToClipboard`, whatever the operating system
answers: if the open call succeeded, the clipboard calls of the run are open,
empty, set-data (succeeding or failing), close, in this order; the clipboard
is closed exactly once, as the last call of the run, and is not held on return.
If no open call succeeded (it failed or was never reached), the run makes no
close, no empty and no set-data call, and leaves the clipboard content and the
open state as they were. -/
theorem C5_clipboard_closed_exactly_when_opened (os : OS) (P : List WChar) (w : World) :
    (Call.OpenClipboard true ∈ newCalls w (CopyFileToClipboard os P w).2 →
        (newCalls w (CopyFileToClipboard os P w).2).filter Call.isClipboardCall
            = [Call.OpenClipboard true, Call.EmptyClipboard,
               Call.SetClipboardData CF_HDROP os.setDataOk, Call.CloseClipboard]
        ∧ (newCalls w (CopyFileToClipboard os P w).2).count Call.CloseClipboard = 1
        ∧ (newCalls w (CopyFileToClipboard os P w).2).getLast? = some Call.CloseClipboard
        ∧ (CopyFileToClipboard os P w).2.clipboardOpen = false)
    ∧ (Call.OpenClipboard true ∉ newCalls w (CopyFileToClipboard os P w).2 →
        (newCalls w (CopyFileToClipboard os P w).2).count Call.CloseClipboard = 0
        ∧ (newCalls w (CopyFileToClipboard os P w).2).count Call.EmptyClipboard = 0
        ∧ (∀ f ok, Call.SetClipboardData f ok ∉ newCalls w (CopyFileToClipboard os P w).2)
        ∧ (CopyFileToClipboard os P w).2.clipboard = w.clipboard
        ∧ (CopyFileToClipboard os P w).2.clipboardOpen = w.clipboardOpen) := by
  rw [CopyFileToClipboard_eq]
  split_ifs <;>
    simp [newCalls, drop_calls, Call.isClipboardCall, List.filter, List.count_cons, *]

/-- C5 at concrete inputs: a run in which the open call succeeds and installing
the data fails closes the clipboard once and returns without holding it; a run
in which the open call fails makes no close call. -/
theorem C5_examples :
    (newCalls exampleWorld
        (CopyFileToClipboard (exampleOS true true true false) examplePath
          exampleWorld).2).count Call.CloseClipboard = 1
    ∧ (CopyFileToClipboard (exampleOS true true true false) examplePath
          exampleWorld).2.clipboardOpen = false
    ∧ (newCalls exampleWorld
        (CopyFileToClipboard (exampleOS true true false true) examplePath
          exampleWorld).2).count Call.CloseClipboard = 0 :=
  ⟨((C5_clipboard_closed_exactly_when_opened (exampleOS true true true false) examplePath
      exampleWorld).1 (by decide)).2.1,
   ((C5_clipboard_closed_exactly_when_opened (exampleOS true true true false) examplePath
      exampleWorld).1 (by decide)).2.2.2,
   ((C5_clipboard_closed_exactly_when_opened (exampleOS true true false true) examplePath
      exampleWorld).2 (by decide)).1⟩

/-- C6: in every run of `CopyFileToClipboard` in which the allocation succeeds,
exactly one of four things happens: the lock fails, the clipboard open fails,
installing the data fails, or installing the data succeeds.  In the first three
the run releases the block exactly once; in the last it does not release it
(no `GlobalFree` at all, so none after the install); on no path is the block
released twice. -/
theorem C6_block_released_once_unless_installed (os : OS) (P : List WChar) (w : World)
    (h : Call.GlobalAlloc (globalSize P) true ∈ newCalls w (CopyFileToClipboard os P w).2) :
    (Call.GlobalLock false ∈ newCalls w (CopyFileToClipboard os P w).2
      ∨ Call.OpenClipboard false ∈ newCalls w (CopyFileToClipboard os P w).2
      ∨ Call.SetClipboardData CF_HDROP false ∈ newCalls w (CopyFileToClipboard os P w).2
      ∨ Call.SetClipboardData CF_HDROP true ∈ newCalls w (CopyFileToClipboard os P w).2)
    ∧ (Call.GlobalLock false ∈ newCalls w (CopyFileToClipboard os P w).2
        ∨ Call.OpenClipboard false ∈ newCalls w (CopyFileToClipboard os P w).2
        ∨ Call.SetClipboardData CF_HDROP false ∈ newCalls w (CopyFileToClipboard os P w).2 →
        (newCalls w (CopyFileToClipboard os P w).2).count Call.GlobalFree = 1
        ∧ (CopyFileToClipboard os P w).1 ≠ Outcome.Published)
    ∧ (Call.SetClipboardData CF_HDROP true ∈ newCalls w (CopyFileToClipboard os P w).2 →
        (newCalls w (CopyFileToClipboard os P w).2).count Call.GlobalFree = 0
        ∧ Call.GlobalFree ∉ newCalls w (CopyFileToClipboard os P w).2
        ∧ (CopyFileToClipboard os P w).1 = Outcome.Published)
    ∧ (newCalls w (CopyFileToClipboard os P w).2).count Call.GlobalFree ≤ 1 := by
  rw [CopyFileToClipboard_eq] at h ⊢
  split_ifs at h ⊢ <;>
    simp [newCalls, drop_calls, List.count_cons] at h ⊢

/-- C6 at a concrete input: the allocation succeeds and the lock fails; the block
is released exactly once. -/
theorem C6_witness :
    Call.GlobalAlloc (globalSize examplePath) true
        ∈ newCalls exampleWorld
            (CopyFileToClipboard (exampleOS true false true true) examplePath exampleWorld).2
    ∧ (newCalls exampleWorld
        (CopyFileToClipboard (exampleOS true false true true) examplePath
          exampleWorld).2).count Call.GlobalFree = 1 :=
  ⟨by decide,
   ((C6_block_released_once_unless_installed (exampleOS true false true true) examplePath
      exampleWorld (by decide)).2.1 (Or.inl (by decide))).1⟩

/-- C7, as amended: every run of `CopyFileToClipboard` that fails after the
existence check ends in one of two ways.  Either the allocation, the lock or the clipboard open
failed: then no empty and no set-data call was made and the clipboard content
is the initial one.  Or installing the payload failed after the clipboard was
opened and emptied: then the clipboard is empty.  In both, no set-data call
succeeded, so the run put no entry on the clipboard: whatever the clipboard
holds at the end, it held at the start. -/
theorem C7_failure_leaves_clipboard_untouched_or_empty (os : OS) (P : List WChar) (w : World)
    (hfound : (CopyFileToClipboard os P w).1 ≠ Outcome.PathNotFound)
    (hfail : (CopyFileToClipboard os P w).1 ≠ Outcome.Published) :
    ((((CopyFileToClipboard os P w).1 = Outcome.AllocationFailed
          ∨ (CopyFileToClipboard os P w).1 = Outcome.LockFailed
          ∨ (CopyFileToClipboard os P w).1 = Outcome.ClipboardUnavailable)
        ∧ Call.EmptyClipboard ∉ newCalls w (CopyFileToClipboard os P w).2
        ∧ (CopyFileToClipboard os P w).2.clipboard = w.clipboard)
      ∨ ((CopyFileToClipboard os P w).1 = Outcome.PublishFailed
        ∧ Call.OpenClipboard true ∈ newCalls w (CopyFileToClipboard os P w).2
        ∧ Call.EmptyClipboard ∈ newCalls w (CopyFileToClipboard os P w).2
        ∧ Call.SetClipboardData CF_HDROP false ∈ newCalls w (CopyFileToClipboard os P w).2
        ∧ (CopyFileToClipboard os P w).2.clipboard = []))
    ∧ (∀ f, Call.SetClipboardData f true ∉ newCalls w (CopyFileToClipboard os P w).2)
    ∧ (∀ e ∈ (CopyFileToClipboard os P w).2.clipboard, e ∈ w.clipboard) := by
  rw [CopyFileToClipboard_eq] at hfound hfail ⊢
  split_ifs at hfound hfail ⊢
  · exact absurd rfl hfound
  · simp [newCalls, drop_calls]
  · simp [newCalls, drop_calls]
  · simp [newCalls, drop_calls]
  · simp [newCalls, drop_calls]
  · exact absurd rfl hfail

/-- C7 as stated fails in its last clause: the clipboard holds a file-drop entry
from an earlier copy and cannot be opened (another program holds it); the run
fails after the existence check, and the clipboard, untouched, still holds the
file-drop entry. -/
theorem C7_counterexample_earlier_file_drop :
    (CopyFileToClipboard (exampleOS true true false true) examplePath fileDropWorld).1
        = Outcome.ClipboardUnavailable
    ∧ (CopyFileToClipboard (exampleOS true true false true) examplePath
          fileDropWorld).2.clipboard = fileDropWorld.clipboard
    ∧ getClipboardData
        (CopyFileToClipboard (exampleOS true true false true) examplePath
          fileDropWorld).2.clipboard CF_HDROP = some (payload [98])
    ∧ getClipboardData
        (CopyFileToClipboard (exampleOS true true false true) examplePath
          fileDropWorld).2.clipboard CF_HDROP ≠ none := by
  decide

/-- C7 at concrete inputs: when the clipboard cannot be opened the plain text it
held is still there; when installing the payload fails the clipboard is
empty. -/
theorem C7_witness :
    (CopyFileToClipboard (exampleOS true true false true) examplePath exampleWorld).1
        = Outcome.ClipboardUnavailable
    ∧ (CopyFileToClipboard (exampleOS true true false true) examplePath
          exampleWorld).2.clipboard = exampleWorld.clipboard
    ∧ (CopyFileToClipboard (exampleOS true true true false) examplePath exampleWorld).1
        = Outcome.PublishFailed
    ∧ (∀ e ∈ (CopyFileToClipboard (exampleOS true true true false) examplePath
          exampleWorld).2.clipboard, e ∈ exampleWorld.clipboard)
    ∧ (CopyFileToClipboard (exampleOS true true true false) examplePath
          exampleWorld).2.clipboard = [] :=
  ⟨by decide, by decide, by decide,
   (C7_failure_leaves_clipboard_untouched_or_empty (exampleOS true true true false) examplePath
      exampleWorld (by decide) (by decide)).2.2,
   by decide⟩

/-- C8: for every path `P` and every initial world, a second call of
`CopyFileToClipboard(P)` right after a first one, the operating system
answering the second as it answered the first, ends at the same return point
and leaves the clipboard as the first call left it: every format reports the
same data, and after a success that is the single file-drop entry with the
payload of `P`, whose path list decodes to the same entries.  The same holds
when the operating system answers the second call differently, as long as the
second call ends at the return point of the first. -/
theorem C8_publish_twice_same_as_once (os os2 : OS) (P : List WChar) (w : World) :
    (CopyFileToClipboard os P (CopyFileToClipboard os P w).2).1 = (CopyFileToClipboard os P w).1
    ∧ (CopyFileToClipboard os P (CopyFileToClipboard os P w).2).2.clipboard
        = (CopyFileToClipboard os P w).2.clipboard
    ∧ (CopyFileToClipboard os P (CopyFileToClipboard os P w).2).2.clipboardOpen
        = (CopyFileToClipboard os P w).2.clipboardOpen
    ∧ (∀ f, getClipboardData (CopyFileToClipboard os P (CopyFileToClipboard os P w).2).2.clipboard f
          = getClipboardData (CopyFileToClipboard os P w).2.clipboard f)
    ∧ ((CopyFileToClipboard os P w).1 = Outcome.Published →
        (CopyFileToClipboard os P (CopyFileToClipboard os P w).2).2.clipboard
          = [(CF_HDROP, payload P)]
        ∧ (CopyFileToClipboard os P w).2.clipboard = [(CF_HDROP, payload P)])
    ∧ ((CopyFileToClipboard os2 P (CopyFileToClipboard os P w).2).1
          = (CopyFileToClipboard os P w).1 →
        (CopyFileToClipboard os2 P (CopyFileToClipboard os P w).2).2.clipboard
          = (CopyFileToClipboard os P w).2.clipboard) := by
  have e1 := outcome_indep os P (CopyFileToClipboard os P w).2 w
  have c2 := clipboard_eq os P (CopyFileToClipboard os P w).2
  have c2' := clipboard_eq os2 P (CopyFileToClipboard os P w).2
  have o2 := clipboardOpen_eq os P (CopyFileToClipboard os P w).2
  have c1 := clipboard_eq os P w
  have o1 := clipboardOpen_eq os P w
  rw [e1] at c2 o2
  have hcl : (CopyFileToClipboard os P (CopyFileToClipboard os P w).2).2.clipboard
      = (CopyFileToClipboard os P w).2.clipboard := by
    rw [c2, c1]; split_ifs <;> rfl
  refine ⟨e1, hcl, ?_, ?_, ?_, ?_⟩
  · rw [o2, o1]; split_ifs <;> rfl
  · intro f; rw [hcl]
  · intro h
    rw [hcl, c1, if_pos h]
    exact ⟨rfl, rfl⟩
  · intro h
    rw [c2', h, c1]
    split_ifs <;> rfl

/-- C8 at a concrete input: after one call and after two calls for `C:\a` the
clipboard holds the same single file-drop entry, and its path list decodes to
`C:\a` both times. -/
theorem C8_example :
    (CopyFileToClipboard (exampleOS true true true true) examplePath
        (CopyFileToClipboard (exampleOS true true true true) examplePath
          exampleWorld).2).2.clipboard = [(CF_HDROP, payload examplePath)]
    ∧ (CopyFileToClipboard (exampleOS true true true true) examplePath
          exampleWorld).2.clipboard = [(CF_HDROP, payload examplePath)]
    ∧ readFileList (payload examplePath) dropFiles = some ([examplePath], []) :=
  ⟨((C8_publish_twice_same_as_once (exampleOS true true true true)
      (exampleOS true true true true) examplePath exampleWorld).2.2.2.2.1 (by decide)).1,
   ((C8_publish_twice_same_as_once (exampleOS true true true true)
      (exampleOS true true true true) examplePath exampleWorld).2.2.2.2.1 (by decide)).2,
   by decide⟩

/-- C9: `main` exits with code 1 if and only if the number of path arguments is
not exactly one, and with code 0 otherwise.  In the first case it prints the
usage line to the error stream, makes no call at all (so `CopyFileToClipboard`
is not called) and leaves the clipboard as it was.  With exactly one path
argument it calls `CopyFileToClipboard` once, on the widened argument (the
world it leaves is the one that call leaves, with one attribute query in the
log), and exits with code 0 at every return point of that call. -/
theorem C9_main_exit_code (os : OS) (argv : List (List CChar)) (w : World) :
    ((main os argv w).1 = 1 ↔ argv.tail.length ≠ 1)
    ∧ ((main os argv w).1 = 0 ↔ argv.tail.length = 1)
    ∧ (argv.tail.length ≠ 1 →
        (main os argv w).2.output = w.output ++ [(Stream.cerr, "Usage: <argv[0]> <file_path>")]
        ∧ newCalls w (main os argv w).2 = []
        ∧ (main os argv w).2.clipboard = w.clipboard
        ∧ (main os argv w).2.clipboardOpen = w.clipboardOpen)
    ∧ (∀ arg, argv.tail = [arg] →
        (main os argv w).1 = 0
        ∧ (main os argv w).2 = (CopyFileToClipboard os (widen arg) w).2
        ∧ (newCalls w (main os argv w).2).countP Call.isAttributeQuery = 1) := by
  have hlen : argv.tail.length = argv.length - 1 := List.length_tail argv
  by_cases h : argv.length = 2
  · have hmain : main os argv w = (0, (CopyFileToClipboard os (widen (argv.getD 1 [])) w).2) := by
      simp [main, h]
    rw [hmain]
    refine ⟨by simp; omega, by simp; omega, fun hne => absurd hlen (by omega), ?_⟩
    intro arg harg
    have hget : argv.getD 1 [] = arg := by
      cases argv with
      | nil => simp at h
      | cons p rest => simp only [List.tail_cons] at harg; simp [harg]
    rw [hget]
    exact ⟨rfl, rfl, count_attribute_queries os (widen arg) w⟩
  · have hmain : main os argv w = (1, w.print Stream.cerr "Usage: <argv[0]> <file_path>") := by
      simp [main, h]
    rw [hmain]
    refine ⟨by simp; omega, by simp; omega, fun _ => ?_, ?_⟩
    · simp [World.print, newCalls]
    · intro arg harg
      rw [harg] at hlen
      simp at hlen
      omega

/-- C9 at concrete inputs: with no path argument and with two path arguments
`main` exits with code 1 and makes no call; with the one path argument `C:\a`
it exits with code 0, both when the publish step succeeds and when the file does
not exist. -/
theorem C9_examples :
    (main (exampleOS true true true true) [[109]] exampleWorld).1 = 1
    ∧ (main (exampleOS true true true true) [[109], exampleArg, exampleArg] exampleWorld).1 = 1
    ∧ newCalls exampleWorld
        (main (exampleOS true true true true) [[109], exampleArg, exampleArg] exampleWorld).2 = []
    ∧ (main (exampleOS true true true true) [[109], exampleArg] exampleWorld).1 = 0
    ∧ (main (exampleOS true true true true) [[109], [98, 0]] exampleWorld).1 = 0
    ∧ (main (exampleOS true true true true) [[109], exampleArg] exampleWorld).2.clipboard
        = [(CF_HDROP, payload examplePath)] :=
  ⟨(C9_main_exit_code (exampleOS true true true true) [[109]] exampleWorld).1.2 (by decide),
   (C9_main_exit_code (exampleOS true true true true) [[109], exampleArg, exampleArg]
      exampleWorld).1.2 (by decide),
   ((C9_main_exit_code (exampleOS true true true true) [[109], exampleArg, exampleArg]
      exampleWorld).2.2.1 (by decide)).2.1,
   ((C9_main_exit_code (exampleOS true true true true) [[109], exampleArg]
      exampleWorld).2.2.2 exampleArg rfl).1,
   ((C9_main_exit_code (exampleOS true true true true) [[109], [98, 0]]
      exampleWorld).2.2.2 [98, 0] rfl).1,
   by decide⟩

/-- C10: the wide path `main` hands to `CopyFileToClipboard` for an argument is
`widen` of it: it has as many code units as the argument has bytes before its
first null, and code unit `i` is byte `i` converted from `char` to `wchar_t` on
its own (the byte's value below 128, the byte's value plus 0xFF00 from 128 on,
by sign extension).  When every byte of the argument is below 128 the wide path
is the byte values zero-extended, which is the UTF-16 text of the argument read
as UTF-8.  When the argument holds a byte from 128 on, the wide path is not the
UTF-16 text of the file name the argument encodes in UTF-8 (it is longer), nor
the UTF-16 text of the argument read in a single-byte code page none of whose
characters lies in U+FF80..U+FFFF, ISO-8859-1 among them. -/
theorem C10_argument_widened_bytewise (os : OS) (prog arg : List CChar) (w : World) :
    main os [prog, arg] w = (0, (CopyFileToClipboard os (widen arg) w).2)
    ∧ (widen arg).length = strlen arg
    ∧ (∀ i, i < strlen arg → (widen arg)[i]? = (arg[i]?).map charToWchar)
    ∧ (∀ c : CChar, (charToWchar c).val = if c.val < 128 then c.val else c.val + 65280)
    ∧ ((∀ b ∈ arg.take (strlen arg), b.val < 128) →
        widen arg = (arg.take (strlen arg)).map latin1ToWchar
        ∧ ∀ text, arg.take (strlen arg) = utf8Encode text → widen arg = utf16Encode text)
    ∧ ((∃ b ∈ arg.take (strlen arg), 128 ≤ b.val) →
        widen arg ≠ (arg.take (strlen arg)).map latin1ToWchar
        ∧ (∀ codePage : CChar → WChar, (∀ b, 128 ≤ b.val → (codePage b).val < 65408) →
            widen arg ≠ (arg.take (strlen arg)).map codePage)
        ∧ ∀ text, arg.take (strlen arg) = utf8Encode text → widen arg ≠ utf16Encode text) := by
  refine ⟨main_eq_of_two os prog arg w, length_widen arg, getElem?_widen arg, charToWchar_val,
    ?_, ?_⟩
  · intro hascii
    refine ⟨?_, ?_⟩
    · unfold widen
      exact List.map_congr_left (fun b hb => charToWchar_eq_latin1 b (hascii b hb))
    · intro text htext
      unfold widen
      rw [htext] at hascii ⊢
      exact map_charToWchar_utf8_ascii text hascii
  · intro hhigh
    refine ⟨?_, ?_, ?_⟩
    · intro he
      obtain ⟨b, hb, hb128⟩ := hhigh
      unfold widen at he
      exact charToWchar_ne_latin1 b hb128 (List.map_inj_left.mp he b hb)
    · intro codePage hcp he
      obtain ⟨b, hb, hb128⟩ := hhigh
      unfold widen at he
      have hv := congrArg Fin.val (List.map_inj_left.mp he b hb)
      have hlt := hcp b hb128
      rw [charToWchar_val] at hv
      split_ifs at hv <;> omega
    · intro text htext he
      have hl := congrArg List.length he
      unfold widen at hl
      rw [htext] at hhigh hl
      rw [List.length_map] at hl
      have := length_utf16_lt text hhigh
      omega

/-- C10 at concrete inputs: the argument `C:\a` is widened to the path `C:\a`;
the UTF-8 argument for the file name `é` (bytes C3 A9) is widened to the two
code units FFC3 FFA9, while the UTF-16 text of `é` is the one code unit 00E9. -/
theorem C10_examples :
    widen exampleArg = examplePath
    ∧ widen accentedArg = [65475, 65449]
    ∧ utf8Encode [Char.ofNat 233] = [195, 169]
    ∧ utf16Encode [Char.ofNat 233] = [233]
    ∧ widen accentedArg ≠ utf16Encode [Char.ofNat 233] :=
  ⟨by decide, by decide, by decide, by decide,
   ((C10_argument_widened_bytewise (exampleOS true true true true) [109] accentedArg
      exampleWorld).2.2.2.2.2 ⟨195, by decide, by decide⟩).2.2 [Char.ofNat 233] (by decide)⟩

end Mojify
